import Mathlib

/-!
Verification development for the kite-test orchestration core
(`src/core/testlib.py`, `src/core/timeout.py`).

The Python code is shallowly embedded: log records are `List Char`,
regular expressions are a small AST mirroring the fragment of Python `re`
used by the allow-list patterns, stateful code (the shared allow-list, the
SIGALRM alarm state) is explicit state passing, and fallible code returns
`Except`.
-/

set_option maxRecDepth 8000

namespace KiteTest

/-! ## A model of the Python `re` fragment used by `testlib.py`

The allow-list patterns only use: literal characters, `.` (any character
except a newline), greedy `*`, the greedy optional group `( ... )?`, and
alternation.  `re.match` anchors at the start of the string, tries
alternatives left to right, and quantifiers are greedy with backtracking;
`matchList` returns every remainder the backtracking engine can reach, in
the engine's preference order, so the engine's actual match is the head. -/

inductive Regex where
  | eps
  | char (c : Char)
  | dot
  | seq (r1 r2 : Regex)
  | alt (r1 r2 : Regex)
  | star (r : Regex)
deriving DecidableEq

/-- A literal string as a regex (concatenation of its characters). -/
def lit (s : String) : Regex :=
  s.data.foldr (fun c r => Regex.seq (Regex.char c) r) Regex.eps

/-- Python `.*` (greedy). -/
def anyStar : Regex := Regex.star Regex.dot

/-- Python `(r)?` (greedy optional: presence preferred). -/
def opt (r : Regex) : Regex := Regex.alt r Regex.eps

/-- Greedy star iteration for a body matcher `f`: take another iteration
of the body before stopping, where an iteration must consume input
(mirroring the engine's empty-repetition cutoff).  `fuel` only bounds the
recursion depth; since every iteration strictly shrinks the string, any
`fuel >= s.length` yields the same result, and `matchList` passes
`s.length`. -/
def starGo (f : List Char → List (List Char)) : Nat → List Char → List (List Char)
  | 0, s => [s]
  | fuel + 1, s =>
      ((f s).flatMap
        (fun t => if t.length < s.length then starGo f fuel t else [])) ++ [s]

/-- All remainders (suffixes left unconsumed) reachable when matching `r`
against `s` anchored at the start, in the backtracking engine's preference
order (alternatives left to right, greedy star takes another iteration
before stopping). -/
def matchList : Regex → List Char → List (List Char)
  | Regex.eps, s => [s]
  | Regex.char _, [] => []
  | Regex.char c, a :: t => if a = c then [t] else []
  | Regex.dot, [] => []
  | Regex.dot, a :: t => if a = '\n' then [] else [t]
  | Regex.alt r1 r2, s => matchList r1 s ++ matchList r2 s
  | Regex.seq r1 r2, s => (matchList r1 s).flatMap (fun t => matchList r2 t)
  | Regex.star r, s => starGo (matchList r) s.length s

/-- The remainder of the engine's chosen match of `re.match(r, s)`:
`none` when the pattern does not match at the start, `some t` when the
engine's match consumes `s` up to remainder `t` (so `group(0) == s`
exactly when `t = []`). -/
def reMatch (r : Regex) (s : List Char) : Option (List Char) :=
  (matchList r s).head?

/-- Characters removed by Python `str.strip()` with no argument. -/
def isPySpace (c : Char) : Bool :=
  c = ' ' || c = '\t' || c = '\n' || c = '\r' || c = '\x0b' || c = '\x0c'

/-- Python `m.strip()` on a list of characters. -/
def strip (s : List Char) : List Char :=
  ((s.dropWhile isPySpace).reverse.dropWhile isPySpace).reverse

/-! ## The allow-list and the journal scan (`MachineCase.check_journal_messages`)

In `testlib.py`, `allowed_messages` is a class attribute of `MachineCase`
(lines 104-123) and every mutation — `allow_journal_messages` (line 128)
and the self-extension inside `check_journal_messages` (line 171) — calls
`append` on that one list object, so the list is shared by all
`MachineCase` instances of the process.  The embedding therefore passes
the allow-list as explicit state: every function that can mutate it
returns the list it leaves behind for subsequent code. -/

/-- The class-level default allow-list of `MachineCase.allowed_messages`
(lines 105-121), each Python regex translated to the `Regex` AST. -/
def default_allowed_messages : List Regex :=
  [ lit "-- Reboot --",
    Regex.seq (lit "10")
      (Regex.seq anyStar (lit ": dropping message while waiting for child to exit")),
    Regex.seq (opt (lit "audit: ")) (Regex.seq (lit "type=1403 audit") anyStar),
    Regex.seq (opt (lit "audit: ")) (Regex.seq (lit "type=1404 audit") anyStar),
    Regex.seq (lit "Failed to send coredump datagram:") anyStar,
    lit "Failed to seek to cursor: Invalid argument" ]

/-- Line 123: `allowed_messages += os.environ.get("TEST_ALLOW_JOURNAL_MESSAGES", "").split(",")`.
The environment-supplied extras are a parameter; with the variable unset,
`"".split(",")` is `[""]`, i.e. the single empty pattern `Regex.eps`. -/
def initial_allowed_messages (envExtras : List Regex) : List Regex :=
  default_allowed_messages ++ envExtras

/-- `MachineCase.allow_journal_messages` (lines 125-128): appends each
given pattern to the shared allow-list. -/
def allow_journal_messages (allowed : List Regex) (patterns : List Regex) : List Regex :=
  allowed ++ patterns

/-- The record that triggers the self-extension rule (line 170). -/
def triggerMsg : List Char := "Failed to generate stack trace: (null)".data

/-- The pattern the self-extension rule appends (line 171):
`"Process .* of user .* dumped core.*"`. -/
def coredump_pattern : Regex :=
  Regex.seq (lit "Process ")
    (Regex.seq anyStar
      (Regex.seq (lit " of user ")
        (Regex.seq anyStar (Regex.seq (lit " dumped core") anyStar))))

/-- The inner `for p in self.allowed_messages` loop (lines 174-178): the
record is expected iff some pattern `p` has `re.match(p, m)` succeed with
`match.group(0) == m`, i.e. the engine's anchored match consumes the whole
record. -/
def expectedRecord (allowed : List Regex) (m : List Char) : Bool :=
  allowed.any (fun p => reMatch p m == some ([] : List Char))

/-- Outcome of the record loop of `check_journal_messages`: the allow-list
as left behind (it can grow via the self-extension rule) and the unmatched
records in scan order (`all_found` is false iff `anomalies` is non-empty,
and `first` is its head). -/
structure ScanResult where
  allowed : List Regex
  anomalies : List (List Char)
deriving DecidableEq

/-- The record loop of `check_journal_messages` (lines 155-183): strip the
record, skip it when empty, on the exact trigger record append
`coredump_pattern` to the shared allow-list and continue, otherwise flag
the record when no allow-list pattern fully matches it. -/
def scanRecords (allowed : List Regex) : List (List Char) → ScanResult
  | [] => ⟨allowed, []⟩
  | m0 :: rest =>
      let m := strip m0
      if m = [] then scanRecords allowed rest
      else if m = triggerMsg then
        scanRecords (allowed ++ [coredump_pattern]) rest
      else
        let found := expectedRecord allowed m
        let s := scanRecords allowed rest
        if found then s else ⟨s.allowed, m :: s.anomalies⟩

/-- Message built at line 187 around the first unmatched record. -/
def failHeader : List Char :=
  "FAIL: Test completed, but found unexpected journal messages:\n".data

/-- `MachineCase.check_journal_messages` (lines 143-187) with the journal
records supplied by the remote collaborator as input: raises `Error` with
the first unmatched record iff any record was unmatched; on success the
shared allow-list (possibly grown by the self-extension rule) is what the
process keeps. -/
def check_journal_messages (allowed : List Regex) (msgs : List (List Char)) :
    Except (List Char) (List Regex) :=
  let s := scanRecords allowed msgs
  match s.anomalies.head? with
  | some firstBad => Except.error (failHeader ++ firstBad)
  | none => Except.ok s.allowed

/-- Allow-list interactions of one whole test case, as they affect the
shared class-level list: the patterns the test passes to
`allow_journal_messages` and the records its teardown scan processes.
The result is the shared list as seen by the next test of the process. -/
def runTestAllowList (allowed : List Regex) (extraAllows : List Regex)
    (msgs : List (List Char)) : List Regex :=
  (scanRecords (allow_journal_messages allowed extraAllows) msgs).allowed

/-! ## `MachineCase.tearDown` (lines 97-100)

`tearDown` runs `check_journal_messages` only when `checkSuccess()` (no
phase recorded an error, lines 61-64) and `self.machine.ssh_reachable`
both hold, and then runs `shutil.rmtree(self.tmpdir)`.  There is no
try/finally: when the scan raises, the `rmtree` line is never reached. -/

structure TearDownResult where
  scanned : Bool
  tmpdirRemoved : Bool
  raised : Option (List Char)
deriving DecidableEq

def tearDown (checkSuccess ssh_reachable : Bool) (allowed : List Regex)
    (msgs : List (List Char)) : TearDownResult :=
  if checkSuccess && ssh_reachable then
    match check_journal_messages allowed msgs with
    | Except.ok _ => ⟨true, true, none⟩
    | Except.error e => ⟨true, false, some e⟩
  else ⟨false, true, none⟩

/-! ## `wait` (testlib.py lines 488-519)

The probe is a function of the attempt number; each call either returns a
value (whose Python truthiness is `truthy`) or raises an exception,
identified by a `Nat`.  `tries` is an `Int`, as Python callers may pass
any integer.  The result records the outcome together with how many probe
invocations and how many `time.sleep(delay)` calls were performed. -/

inductive ProbeResult (α : Type) where
  | val (a : α)
  | exc (e : Nat)

inductive WaitOutcome (α : Type) where
  | returned (a : α)
  | raised (e : Nat)
  | timeoutError (msg : List Char)
deriving DecidableEq

structure WaitRes (α : Type) where
  outcome : WaitOutcome α
  calls : Nat
  sleeps : Nat

/-- Python `msg or "Condition did not become true."` (line 519):
`None` and the empty string both fall back to the default. -/
def pyOr (msg : Option (List Char)) (dflt : List Char) : List Char :=
  match msg with
  | none => dflt
  | some s => if s = [] then dflt else s

def defaultWaitMsg : List Char := "Condition did not become true.".data

/-- The `while t < tries` loop of `wait`, entered with counter `t`.
On a truthy value the value is returned before the end-of-iteration
`t = t + 1; time.sleep(delay)`, so `t` sleeps have happened; on an
exception at `t == tries - 1` the exception is re-raised (line 514),
otherwise it is swallowed and the loop continues; when the loop exhausts,
`Error(msg or ...)` is raised having slept once per iteration. -/
def waitGo {α : Type} (probe : Nat → ProbeResult α) (truthy : α → Bool)
    (msg : Option (List Char)) (tries : Int) (t : Nat) : WaitRes α :=
  if h : (t : Int) < tries then
    match probe t with
    | ProbeResult.val a =>
        if truthy a then ⟨WaitOutcome.returned a, t + 1, t⟩
        else waitGo probe truthy msg tries (t + 1)
    | ProbeResult.exc e =>
        if (t : Int) = tries - 1 then ⟨WaitOutcome.raised e, t + 1, t⟩
        else waitGo probe truthy msg tries (t + 1)
  else ⟨WaitOutcome.timeoutError (pyOr msg defaultWaitMsg), t, t⟩
termination_by (tries - t).toNat
decreasing_by
  all_goals omega

/-- `wait(func, msg, delay, tries)`: run the loop from `t = 0`. -/
def wait {α : Type} (probe : Nat → ProbeResult α) (truthy : α → Bool)
    (msg : Option (List Char)) (tries : Int) : WaitRes α :=
  waitGo probe truthy msg tries 0

/-! ## `TapRunner` (testlib.py lines 322-397)

`runOne` wraps one test in its own `unittest.TestResult`; per unittest's
contract a skipped test contributes one entry to `result.skipped` and
`wasSuccessful()` stays true (skips are not failures), a failed/errored
test makes `wasSuccessful()` false, and a passed test neither.  A test's
outcome is abstracted accordingly. -/

inductive TestOutcome where
  | passed
  | failed
  | skipped (reason : List Char)

/-- What `TapRunner.run` reads off the `TestResult` of one test:
`(result.wasSuccessful(), result.skipped)`. -/
def runOne (t : TestOutcome) : Bool × List (List Char) :=
  match t with
  | TestOutcome.passed => (true, [])
  | TestOutcome.failed => (false, [])
  | TestOutcome.skipped r => (true, [r])

/-- A possibly nested `unittest` suite, flattened by `collapse`
(lines 359-365). -/
inductive TestTree where
  | case (outcome : TestOutcome)
  | suite (tests : List TestTree)

def collapse : TestTree → List TestOutcome
  | TestTree.case o => [o]
  | TestTree.suite ts =>
      ts.attach.flatMap (fun tm => collapse tm.1)
decreasing_by
  have := List.sizeOf_lt_of_mem tm.2
  simp_wf
  omega

/-- The `while tests:` loop (lines 372-378): count unsuccessful tests and
accumulate the skip entries. -/
def runLoop : List TestOutcome → Nat → List (List Char) → Nat × List (List Char)
  | [], failures, skips => (failures, skips)
  | t :: rest, failures, skips =>
      let r := runOne t
      runLoop rest (if r.1 then failures else failures + 1) (skips ++ r.2)

/-- `TapRunner.run` (lines 355-397): flatten, run every test, then return
77 when `len(skips) == test_count`, else 1 when `failures` is non-zero,
else 0. -/
def TapRunner_run (testable : TestTree) : Nat :=
  let tests := collapse testable
  let test_count := tests.length
  let r := runLoop tests 0 []
  if r.2.length = test_count then 77
  else if r.1 ≠ 0 then 1
  else 0

/-! ## `Timeout` (timeout.py)

The process state observable by the class: the pending alarm seconds
(`signal.alarm`; 0 means no alarm armed) and the SIGALRM disposition
(`signal.getsignal` / `signal.signal`).  A guard's `handle_timeout` bound
method is distinguished from `SIG_DFL` and from other guards' handlers by
the guard's identity. -/

inductive SigHandler where
  | dfl
  | handler (id : Nat)
deriving DecidableEq

structure SigState where
  alarm : Nat
  sigalrm : SigHandler
deriving DecidableEq

/-- A constructed `Timeout` object: `seconds` is `None` (`Option.none`)
when `__init__` found a non-default SIGALRM handler already installed
(lines 10-13). -/
structure TimeoutGuard where
  id : Nat
  seconds : Option Nat
deriving DecidableEq

/-- `Timeout.__init__(seconds, ...)` against the current signal state. -/
def Timeout_init (s : SigState) (id : Nat) (seconds : Nat) : TimeoutGuard :=
  if s.sigalrm ≠ SigHandler.dfl then ⟨id, none⟩ else ⟨id, some seconds⟩

/-- Python truthiness of `self.seconds` (`None` and `0` are falsy). -/
def truthySeconds : Option Nat → Bool
  | none => false
  | some n => n ≠ 0

/-- `Timeout.__enter__` (lines 27-30): when `self.seconds` is truthy,
install `handle_timeout` as the SIGALRM handler and arm the alarm. -/
def Timeout_enter (g : TimeoutGuard) (s : SigState) : SigState :=
  if truthySeconds g.seconds then ⟨g.seconds.getD 0, SigHandler.handler g.id⟩ else s

/-- `Timeout.__exit__` (lines 32-35): when `self.seconds` is truthy,
cancel the alarm and reset the disposition to `SIG_DFL`; the exception
information arguments are ignored. -/
def Timeout_exit (g : TimeoutGuard) (s : SigState) : SigState :=
  if truthySeconds g.seconds then ⟨0, SigHandler.dfl⟩ else s

/-- A `with Timeout(seconds): body` block that completes before expiry:
construct, enter, run the body (which finishes normally or raises `e`),
and exit — Python's `with` statement calls `__exit__` on both paths.
The body is abstracted by whether it raises; the signal state it leaves
is the guard's concern only. -/
def withTimeout (s : SigState) (id seconds : Nat) (body : Except Nat Unit) :
    SigState × Except Nat Unit :=
  let g := Timeout_init s id seconds
  let s1 := Timeout_enter g s
  (Timeout_exit g s1, body)

/-! ## The cleanup stack

Modelled from the spec: the cleanup machinery behind
`MachineCase.addCleanup` / the post-test unwind is `unittest.TestCase`'s,
which is not part of `src/`; `testlib.py` only registers actions
(`setUp`, `sed_file`, `restore_dir`, `restore_file`, `write_file`).  Per
the spec, registration appends to an ordered sequence and the unwind pops
from the end one action at a time, runs it, collects a failure instead of
propagating it, and continues until the stack is empty.  An action is a
label paired with whether running it raises. -/

def addCleanup (stack : List (Nat × Bool)) (action : Nat × Bool) : List (Nat × Bool) :=
  stack ++ [action]

/-- Pop-run-collect loop over the reversed stack: first component is the
execution order (labels), second the labels whose action raised, in
collection order. -/
def unwindAll : List (Nat × Bool) → List Nat × List Nat
  | [] => ([], [])
  | (id, raises) :: rest =>
      let r := unwindAll rest
      (id :: r.1, (if raises then [id] else []) ++ r.2)

/-- `doCleanups`: unwind the registered stack from its end. -/
def doCleanups (stack : List (Nat × Bool)) : List Nat × List Nat :=
  unwindAll stack.reverse

/-! ## Lemmas about the journal scan -/

/-- Scanning a concatenation: the second half is scanned with the
allow-list the first half left behind, and the unmatched records are
concatenated in order. -/
theorem scanRecords_append (A : List Regex) (xs ys : List (List Char)) :
    scanRecords A (xs ++ ys) =
      ⟨(scanRecords (scanRecords A xs).allowed ys).allowed,
        (scanRecords A xs).anomalies ++
          (scanRecords (scanRecords A xs).allowed ys).anomalies⟩ := by
  induction xs generalizing A with
  | nil => simp [scanRecords]
  | cons m0 rest ih =>
      simp only [List.cons_append, scanRecords, List.append_eq]
      by_cases h1 : strip m0 = []
      · simp only [if_pos h1, ih]
      · by_cases h2 : strip m0 = triggerMsg
        · simp only [if_neg h1, if_pos h2, ih]
        · by_cases h3 : expectedRecord A (strip m0) = true
          · simp only [if_neg h1, if_neg h2, h3, if_true, ih]
          · have h3f : expectedRecord A (strip m0) = false := by simpa using h3
            simp only [if_neg h1, if_neg h2, h3f, Bool.false_eq_true, if_false, ih]
            simp

/-- The scan only ever appends to the allow-list. -/
theorem mem_scanRecords_allowed {p : Regex} {A : List Regex}
    (msgs : List (List Char)) (hp : p ∈ A) :
    p ∈ (scanRecords A msgs).allowed := by
  induction msgs generalizing A with
  | nil => simpa [scanRecords] using hp
  | cons m0 rest ih =>
      simp only [scanRecords]
      by_cases h1 : strip m0 = []
      · simp only [if_pos h1]; exact ih hp
      · by_cases h2 : strip m0 = triggerMsg
        · simp only [if_neg h1, if_pos h2]
          exact ih (List.mem_append_left _ hp)
        · by_cases h3 : expectedRecord A (strip m0) = true
          · simp only [if_neg h1, if_neg h2, h3, if_true]
            exact ih hp
          · have h3f : expectedRecord A (strip m0) = false := by simpa using h3
            simp only [if_neg h1, if_neg h2, h3f, Bool.false_eq_true, if_false]
            exact ih hp

/-- A record fully matched by a pattern already on the allow-list is never
among the unmatched records of a scan, wherever it occurs. -/
theorem not_anomaly_of_expected {p : Regex} {A : List Regex} {x : List Char}
    (hp : p ∈ A) (hm : reMatch p x = some []) (msgs : List (List Char)) :
    x ∉ (scanRecords A msgs).anomalies := by
  induction msgs generalizing A with
  | nil => simp [scanRecords]
  | cons m0 rest ih =>
      simp only [scanRecords]
      by_cases h1 : strip m0 = []
      · simp only [if_pos h1]; exact ih hp
      · by_cases h2 : strip m0 = triggerMsg
        · simp only [if_neg h1, if_pos h2]
          exact ih (List.mem_append_left _ hp)
        · by_cases h3 : expectedRecord A (strip m0) = true
          · simp only [if_neg h1, if_neg h2, h3, if_true]
            exact ih hp
          · have h3f : expectedRecord A (strip m0) = false := by simpa using h3
            simp only [if_neg h1, if_neg h2, h3f, Bool.false_eq_true, if_false]
            intro hmem
            rcases List.mem_cons.mp hmem with heq | hmem2
            · have hx : expectedRecord A (strip m0) = true := by
                simp only [expectedRecord]
                refine List.any_eq_true.mpr ⟨p, hp, ?_⟩
                rw [← heq, hm]
                rfl
              rw [hx] at h3f
              exact Bool.true_eq_false.mp h3f |>.elim
            · exact ih hp hmem2

/-! ## Lemmas about `wait` -/

/-- An attempt is skipped (the loop moves on to the next counter value)
when the probe returns a falsy value, or raises other than on the last
try. -/
def skipsAttempt {α : Type} (probe : Nat → ProbeResult α) (truthy : α → Bool)
    (tries : Int) (i : Nat) : Prop :=
  (∃ a, probe i = ProbeResult.val a ∧ truthy a = false) ∨
    (∃ e, probe i = ProbeResult.exc e ∧ (i : Int) ≠ tries - 1)

theorem waitGo_step {α : Type} (probe : Nat → ProbeResult α) (truthy : α → Bool)
    (msg : Option (List Char)) (tries : Int) (t : Nat)
    (hlt : (t : Int) < tries) (hskip : skipsAttempt probe truthy tries t) :
    waitGo probe truthy msg tries t = waitGo probe truthy msg tries (t + 1) := by
  rcases hskip with ⟨a, hp, ha⟩ | ⟨e, hp, hne⟩
  · rw [waitGo]
    simp [hlt, hp, ha]
  · rw [waitGo]
    simp [hlt, hp, hne]

theorem waitGo_skip_range {α : Type} (probe : Nat → ProbeResult α) (truthy : α → Bool)
    (msg : Option (List Char)) (tries : Int) (d : Nat) :
    ∀ t : Nat, ((t + d : Nat) : Int) ≤ tries →
      (∀ i : Nat, t ≤ i → i < t + d → skipsAttempt probe truthy tries i) →
      waitGo probe truthy msg tries t = waitGo probe truthy msg tries (t + d) := by
  induction d with
  | zero => intro t _ _; rfl
  | succ d ih =>
      intro t hend hskip
      have hlt : (t : Int) < tries := by
        have : ((t + (d + 1) : Nat) : Int) ≤ tries := hend
        push_cast at this ⊢
        omega
      have h1 := waitGo_step probe truthy msg tries t hlt
        (hskip t (Nat.le_refl t) (by omega))
      rw [h1]
      have heq : t + (d + 1) = (t + 1) + d := by omega
      rw [heq]
      refine ih (t + 1) ?_ ?_
      · have : ((t + (d + 1) : Nat) : Int) ≤ tries := hend
        push_cast at this ⊢
        omega
      · intro i hi1 hi2
        exact hskip i (by omega) (by omega)

/-! ## Lemmas about `TapRunner_run` and the cleanup stack -/

/-- Number of tests whose run left `wasSuccessful()` false. -/
def countFailed (ts : List TestOutcome) : Nat :=
  ts.countP (fun t => !(runOne t).1)

/-- Number of tests that ended skipped. -/
def countSkipped (ts : List TestOutcome) : Nat :=
  ts.countP (fun t => !(runOne t).2.isEmpty)

/-- All skip entries accumulated by the loop. -/
def skipEntries (ts : List TestOutcome) : List (List Char) :=
  ts.flatMap (fun t => (runOne t).2)

theorem skipEntries_length (ts : List TestOutcome) :
    (skipEntries ts).length = countSkipped ts := by
  induction ts with
  | nil => rfl
  | cons t rest ih =>
      cases t <;>
        simp [skipEntries, countSkipped, List.countP_cons, runOne] at * <;>
        omega

theorem runLoop_spec (ts : List TestOutcome) :
    ∀ (f : Nat) (sk : List (List Char)),
      runLoop ts f sk = (f + countFailed ts, sk ++ skipEntries ts) := by
  induction ts with
  | nil => intro f sk; simp [runLoop, countFailed, skipEntries]
  | cons t rest ih =>
      intro f sk
      cases t <;>
        simp [runLoop, runOne, countFailed, skipEntries, List.countP_cons, ih] <;>
        omega

theorem unwindAll_spec (l : List (Nat × Bool)) :
    unwindAll l = (l.map Prod.fst, (l.filter Prod.snd).map Prod.fst) := by
  induction l with
  | nil => rfl
  | cons a rest ih =>
      rcases a with ⟨id, raises⟩
      cases raises <;> simp [unwindAll, ih, List.filter]

theorem foldl_addCleanup (acts : List (Nat × Bool)) :
    ∀ s : List (Nat × Bool), List.foldl addCleanup s acts = s ++ acts := by
  induction acts with
  | nil => intro s; simp
  | cons a rest ih => intro s; simp [addCleanup, ih]

/-- The inner-loop test as a proposition: some allow-list pattern's
anchored engine match consumes the whole record. -/
theorem expectedRecord_iff (A : List Regex) (m : List Char) :
    expectedRecord A m = true ↔ ∃ p ∈ A, reMatch p m = some [] := by
  simp [expectedRecord, List.any_eq_true]

/-! ## Claims -/

/-- C1 (counterexample): the claim says a mutation of the allow-list made
by one test is not visible in the next test's scan.  In the code
`allowed_messages` is a class attribute mutated in place, so after a first
test calls `allow_journal_messages("marker123")`, the pattern is still on
the list the second test scans with: the second test's scan accepts the
record `marker123`, while a scan seeded freshly from the process-wide
defaults (what the claim asserts the second test uses) flags it. -/
theorem allowlist_isolation_counterexample :
    lit "marker123" ∈
      runTestAllowList (initial_allowed_messages [Regex.eps]) [lit "marker123"] []
    ∧ (scanRecords
        (runTestAllowList (initial_allowed_messages [Regex.eps]) [lit "marker123"] [])
        ["marker123".data]).anomalies = []
    ∧ (scanRecords (initial_allowed_messages [Regex.eps]) ["marker123".data]).anomalies
        = ["marker123".data]
    ∧ lit "marker123" ∉ initial_allowed_messages [Regex.eps] := by
  decide

/-- C1 (amended): `allowed_messages` is class-level state shared by all
`MachineCase` instances of the process, so every pattern a test appends
via `allow_journal_messages` is still on the allow-list that the next
test's scan starts from. -/
theorem allowlist_shared_across_tests (allowed ps : List Regex)
    (msgs : List (List Char)) (p : Regex) (hp : p ∈ ps) :
    p ∈ runTestAllowList allowed ps msgs := by
  unfold runTestAllowList allow_journal_messages
  exact mem_scanRecords_allowed _ (List.mem_append_right _ hp)

/-- C1 (witness for the amended claim). -/
theorem allowlist_shared_across_tests_witness :
    lit "xyz" ∈ runTestAllowList (initial_allowed_messages [Regex.eps]) [lit "xyz"] [] :=
  allowlist_shared_across_tests (initial_allowed_messages [Regex.eps]) [lit "xyz"] []
    (lit "xyz") (by simp)

/-- C2: a non-empty trimmed record other than the self-extension trigger
is appended to the unmatched records iff no pattern of the allow-list in
force at that point has an anchored match consuming the entire record
(a match covering a proper prefix does not count, because the `if` with
the full-span condition is the only way `found` becomes true); the error
raised by `check_journal_messages` carries exactly the first unmatched
record, and the scan succeeds iff no record was unmatched. -/
theorem journal_whole_line_classification (A : List Regex) (xs : List (List Char))
    (m0 : List Char) (hne : strip m0 ≠ []) (htr : strip m0 ≠ triggerMsg) :
    ((scanRecords A (xs ++ [m0])).anomalies
        = (scanRecords A xs).anomalies ++
            (if ∃ p ∈ (scanRecords A xs).allowed, reMatch p (strip m0) = some []
             then [] else [strip m0]))
    ∧ (∀ (msgs : List (List Char)) (e : List Char),
        check_journal_messages A msgs = Except.error e →
          e = failHeader ++ (scanRecords A msgs).anomalies.headD [])
    ∧ (∀ msgs : List (List Char),
        check_journal_messages A msgs = Except.ok (scanRecords A msgs).allowed
          ↔ (scanRecords A msgs).anomalies = []) := by
  refine ⟨?_, ?_, ?_⟩
  · rw [scanRecords_append]
    simp only [scanRecords]
    rw [if_neg hne, if_neg htr]
    by_cases hfound : expectedRecord (scanRecords A xs).allowed (strip m0) = true
    · rw [if_pos ((expectedRecord_iff _ _).mp hfound), if_pos hfound]
    · have hfoundf : expectedRecord (scanRecords A xs).allowed (strip m0) = false := by
        simpa using hfound
      rw [if_neg (fun hex => hfound ((expectedRecord_iff _ _).mpr hex))]
      simp [hfoundf, scanRecords]
  · intro msgs e
    unfold check_journal_messages
    cases h : (scanRecords A msgs).anomalies with
    | nil => simp [h]
    | cons a rest => simp [h]; intro he; simp [he]
  · intro msgs
    unfold check_journal_messages
    cases h : (scanRecords A msgs).anomalies with
    | nil => simp [h]
    | cons a rest => simp [h]

/-- C2 (witness): the pattern `ab` matches a proper prefix of the record
`abc`, so the record is appended to the unmatched records. -/
theorem journal_whole_line_classification_witness :
    (scanRecords [lit "ab"] ([] ++ ["abc".data])).anomalies
      = (scanRecords [lit "ab"] []).anomalies ++
          (if ∃ p ∈ (scanRecords [lit "ab"] []).allowed, reMatch p (strip "abc".data) = some []
           then [] else [strip "abc".data]) :=
  (journal_whole_line_classification [lit "ab"] [] "abc".data
    (by decide) (by decide)).1

/-- C3: a record exactly equal to "Failed to generate stack trace: (null)"
is itself never unmatched and switches the rest of the scan to an
allow-list extended with the dumped-core pattern, so every later record
fully matched by that pattern is expected; concretely, with the default
allow-list a scan of the trigger followed by a dumped-core record reports
no unmatched record, while a scan of the dumped-core record alone reports
that record as the anomaly. -/
theorem journal_self_extension (A : List Regex) (pre post : List (List Char)) :
    ((scanRecords A (pre ++ triggerMsg :: post)).anomalies
        = (scanRecords A pre).anomalies ++
            (scanRecords ((scanRecords A pre).allowed ++ [coredump_pattern]) post).anomalies)
    ∧ (∀ r ∈ post, reMatch coredump_pattern (strip r) = some [] →
        strip r ∉
          (scanRecords ((scanRecords A pre).allowed ++ [coredump_pattern]) post).anomalies)
    ∧ (scanRecords (initial_allowed_messages [Regex.eps])
        [triggerMsg, "Process 1234 of user 1000 dumped core.".data]).anomalies = []
    ∧ (scanRecords (initial_allowed_messages [Regex.eps])
        ["Process 1234 of user 1000 dumped core.".data]).anomalies
        = ["Process 1234 of user 1000 dumped core.".data] := by
  refine ⟨?_, ?_, by decide, by decide⟩
  · rw [scanRecords_append]
    have hstep : ∀ B : List Regex,
        scanRecords B (triggerMsg :: post)
          = scanRecords (B ++ [coredump_pattern]) post := by
      intro B
      simp only [scanRecords]
      rw [if_neg (by decide), if_pos (by decide)]
    rw [hstep]
  · intro r _ hr
    exact not_anomaly_of_expected
      (List.mem_append_right _ (List.mem_singleton.mpr rfl)) hr post

/-- C3 (witness): with the defaults after a trigger, the concrete
dumped-core record is not among the unmatched records. -/
theorem journal_self_extension_witness :
    strip "Process 1234 of user 1000 dumped core.".data ∉
      (scanRecords
        ((scanRecords (initial_allowed_messages [Regex.eps]) []).allowed
          ++ [coredump_pattern])
        ["Process 1234 of user 1000 dumped core.".data]).anomalies :=
  (journal_self_extension (initial_allowed_messages [Regex.eps]) []
      ["Process 1234 of user 1000 dumped core.".data]).2.1
    "Process 1234 of user 1000 dumped core.".data (by simp) (by decide)

/-- C4: for every sequence of registered cleanup actions, the unwind
executes them in exactly the reverse of registration order; the actions
that raise have their failures collected (in that same order) without
aborting the unwind, so every registered action still executes exactly
once. -/
theorem cleanup_stack_lifo_unwind (acts : List (Nat × Bool)) :
    (doCleanups (List.foldl addCleanup [] acts)).1 = (acts.map Prod.fst).reverse
    ∧ (doCleanups (List.foldl addCleanup [] acts)).2
        = ((acts.filter Prod.snd).map Prod.fst).reverse
    ∧ (∀ i : Nat, ((doCleanups (List.foldl addCleanup [] acts)).1).count i
        = (acts.map Prod.fst).count i) := by
  rw [foldl_addCleanup]
  unfold doCleanups
  rw [unwindAll_spec]
  refine ⟨by simp, by simp, fun i => by simp⟩

/-- C5: the BoundedWait contract of `wait`.  (i) A probe falsy on its
first `k` calls and truthy on call `k + 1 <= tries` makes `wait` return
that value after exactly `k + 1` probe invocations and `k` sleeps;
(ii) a probe that raises on every call has the exception of the final
(`tries`-th) attempt propagate, not the generic timeout; (iii) a probe
falsy on every call without raising makes `wait` raise the timeout
`Error` after exactly `tries` probe invocations. -/
theorem wait_bounded_contract {α : Type} (probe : Nat → ProbeResult α)
    (truthy : α → Bool) (msg : Option (List Char)) (tries : Int)
    (htries : 1 ≤ tries) :
    (∀ (k : Nat) (a : α), (k : Int) < tries →
        (∀ i : Nat, i < k → ∃ b, probe i = ProbeResult.val b ∧ truthy b = false) →
        probe k = ProbeResult.val a → truthy a = true →
        wait probe truthy msg tries = ⟨WaitOutcome.returned a, k + 1, k⟩)
    ∧ ((∀ i : Nat, (i : Int) < tries → ∃ e, probe i = ProbeResult.exc e) →
        ∃ e, probe (tries.toNat - 1) = ProbeResult.exc e ∧
          wait probe truthy msg tries
            = ⟨WaitOutcome.raised e, tries.toNat, tries.toNat - 1⟩)
    ∧ ((∀ i : Nat, (i : Int) < tries → ∃ b, probe i = ProbeResult.val b ∧ truthy b = false) →
        wait probe truthy msg tries
          = ⟨WaitOutcome.timeoutError (pyOr msg defaultWaitMsg),
              tries.toNat, tries.toNat⟩) := by
  have hT : ((tries.toNat : Nat) : Int) = tries := Int.toNat_of_nonneg (by omega)
  refine ⟨?_, ?_, ?_⟩
  · intro k a hk hfalsy hpk hta
    unfold wait
    have hrange := waitGo_skip_range probe truthy msg tries k 0
      (by push_cast; omega)
      (fun i _ hi => Or.inl (by
        obtain ⟨b, hb1, hb2⟩ := hfalsy i (by omega)
        exact ⟨b, hb1, hb2⟩))
    rw [Nat.zero_add] at hrange
    rw [hrange, waitGo]
    rw [dif_pos hk]
    simp [hpk, hta]
  · intro hexc
    have hT1 : 1 ≤ tries.toNat := by omega
    obtain ⟨e, he⟩ := hexc (tries.toNat - 1) (by push_cast; omega)
    refine ⟨e, he, ?_⟩
    unfold wait
    have hrange := waitGo_skip_range probe truthy msg tries (tries.toNat - 1) 0
      (by push_cast; omega)
      (fun i _ hi => by
        obtain ⟨e2, he2⟩ := hexc i (by push_cast; omega)
        exact Or.inr ⟨e2, he2, by push_cast; omega⟩)
    rw [Nat.zero_add] at hrange
    rw [hrange, waitGo]
    rw [dif_pos (by push_cast; omega)]
    have hlast : (((tries.toNat - 1 : Nat) : Int)) = tries - 1 := by push_cast; omega
    simp only [he, hlast, if_pos rfl]
    have h1 : tries.toNat - 1 + 1 = tries.toNat := by omega
    rw [h1]
    simp
  · intro hfalsy
    unfold wait
    have hrange := waitGo_skip_range probe truthy msg tries tries.toNat 0
      (by push_cast; omega)
      (fun i _ hi => Or.inl (hfalsy i (by push_cast; omega)))
    rw [Nat.zero_add] at hrange
    rw [hrange, waitGo]
    rw [dif_neg (by push_cast; omega)]

/-- C5 (witness): the three parts of the contract at concrete probes with
`tries = 3`: a probe falsy twice then truthy, a probe that always raises
exception 7, and a probe that is always falsy. -/
theorem wait_bounded_contract_witness :
    wait (fun i => ProbeResult.val (decide (i = 2))) (fun b => b) none 3
        = ⟨WaitOutcome.returned true, 3, 2⟩
    ∧ wait (fun _ => ProbeResult.exc 7) (fun b : Bool => b) none 3
        = ⟨WaitOutcome.raised 7, 3, 2⟩
    ∧ wait (fun _ => ProbeResult.val false) (fun b => b) none 3
        = ⟨WaitOutcome.timeoutError defaultWaitMsg, 3, 3⟩ := by
  refine ⟨?_, ?_, ?_⟩
  · have h := (wait_bounded_contract (fun i => ProbeResult.val (decide (i = 2)))
      (fun b => b) none 3 (by omega)).1 2 true (by omega)
      (fun i hi => ⟨decide (i = 2), rfl, by
        have : i ≠ 2 := by omega
        simp [this]⟩)
      (by simp) rfl
    exact h
  · have h := (wait_bounded_contract (fun _ => ProbeResult.exc 7)
      (fun b : Bool => b) none 3 (by omega)).2.1
      (fun i _ => ⟨7, rfl⟩)
    obtain ⟨e, he, hw⟩ := h
    have he7 : 7 = e := by simpa using he
    rw [← he7] at hw
    simpa using hw
  · have h := (wait_bounded_contract (fun _ => ProbeResult.val false)
      (fun b => b) none 3 (by omega)).2.2
      (fun i _ => ⟨false, rfl, rfl⟩)
    simpa using h

/-- C6: the aggregate exit code of `TapRunner.run` over a flattened
collection of tests: 77 iff every test ended skipped, otherwise 1 iff at
least one test was unsuccessful, otherwise 0. -/
theorem tap_runner_exit_code (testable : TestTree) :
    (TapRunner_run testable = 77
        ↔ countSkipped (collapse testable) = (collapse testable).length)
    ∧ (TapRunner_run testable = 1
        ↔ countSkipped (collapse testable) ≠ (collapse testable).length
            ∧ 0 < countFailed (collapse testable))
    ∧ (TapRunner_run testable = 0
        ↔ countSkipped (collapse testable) ≠ (collapse testable).length
            ∧ countFailed (collapse testable) = 0) := by
  simp only [TapRunner_run, runLoop_spec, List.nil_append, Nat.zero_add,
    skipEntries_length]
  by_cases hs : countSkipped (collapse testable) = (collapse testable).length
  · simp [hs]
  · by_cases hf : countFailed (collapse testable) = 0
    · simp [hs, hf]
    · simp [hs, hf]
      omega

/-- C7 (counterexample): the claim says that whenever a guard is entered
while another guard is active, the inner guard's enter and exit are
no-ops.  The code performs the nesting check in `__init__`, not in
`__enter__`: a guard constructed while no guard was active, but entered
inside another guard's scope, does install its own handler and alarm
(overriding the outer deadline), and its exit cancels the outer alarm
altogether. -/
theorem timeout_nesting_counterexample :
    Timeout_enter (Timeout_init ⟨0, SigHandler.dfl⟩ 1 5)
        (Timeout_enter (Timeout_init ⟨0, SigHandler.dfl⟩ 2 10) ⟨0, SigHandler.dfl⟩)
      ≠ Timeout_enter (Timeout_init ⟨0, SigHandler.dfl⟩ 2 10) ⟨0, SigHandler.dfl⟩
    ∧ Timeout_enter (Timeout_init ⟨0, SigHandler.dfl⟩ 2 10) ⟨0, SigHandler.dfl⟩
        = ⟨10, SigHandler.handler 2⟩
    ∧ Timeout_enter (Timeout_init ⟨0, SigHandler.dfl⟩ 1 5) ⟨10, SigHandler.handler 2⟩
        = ⟨5, SigHandler.handler 1⟩
    ∧ Timeout_exit (Timeout_init ⟨0, SigHandler.dfl⟩ 1 5) ⟨5, SigHandler.handler 1⟩
        = ⟨0, SigHandler.dfl⟩ := by
  decide

/-- C7 (amended): a `Timeout` guard CONSTRUCTED while another guard's
handler is installed (the SIGALRM disposition is not `SIG_DFL`) gets
`seconds = None`, and both its enter and its exit leave the signal state
untouched — in the idiomatic `with Timeout(..):` usage, where
construction immediately precedes entry, only the outer guard's deadline
is honored. -/
theorem timeout_nesting_init_inert (s : SigState) (id seconds : Nat)
    (h : s.sigalrm ≠ SigHandler.dfl) :
    (Timeout_init s id seconds).seconds = none
    ∧ (∀ s2 : SigState, Timeout_enter (Timeout_init s id seconds) s2 = s2)
    ∧ (∀ s2 : SigState, Timeout_exit (Timeout_init s id seconds) s2 = s2) := by
  unfold Timeout_init
  rw [if_pos h]
  exact ⟨rfl, fun s2 => rfl, fun s2 => rfl⟩

/-- C7 (witness): a guard constructed inside an active guard's scope is
inert. -/
theorem timeout_nesting_init_inert_witness :
    (Timeout_init ⟨10, SigHandler.handler 2⟩ 1 5).seconds = none
    ∧ Timeout_enter (Timeout_init ⟨10, SigHandler.handler 2⟩ 1 5)
        ⟨10, SigHandler.handler 2⟩ = ⟨10, SigHandler.handler 2⟩ := by
  have h := timeout_nesting_init_inert ⟨10, SigHandler.handler 2⟩ 1 5 (by decide)
  exact ⟨h.1, h.2.1 ⟨10, SigHandler.handler 2⟩⟩

/-- C8: for a non-nested guard (constructed with `SIG_DFL` installed) with
a truthy duration, every exit of the `with` block — the body finishing
normally or raising — leaves the alarm cancelled and the SIGALRM
disposition reset to its default. -/
theorem timeout_exit_restores (s : SigState) (id seconds : Nat)
    (body : Except Nat Unit)
    (hdfl : s.sigalrm = SigHandler.dfl) (hsec : seconds ≠ 0) :
    (withTimeout s id seconds body).1 = ⟨0, SigHandler.dfl⟩
    ∧ (withTimeout s id seconds body).2 = body := by
  unfold withTimeout Timeout_init
  rw [if_neg (by simp [hdfl])]
  constructor
  · show Timeout_exit ⟨id, some seconds⟩ _ = _
    unfold Timeout_exit
    rw [if_pos (by simp [truthySeconds, hsec])]
  · rfl

/-- C8 (witness): a body that raises exception 7 still leaves the alarm
mechanism fully reset. -/
theorem timeout_exit_restores_witness :
    (withTimeout ⟨0, SigHandler.dfl⟩ 1 5 (Except.error 7)).1 = ⟨0, SigHandler.dfl⟩ :=
  (timeout_exit_restores ⟨0, SigHandler.dfl⟩ 1 5 (Except.error 7) rfl (by omega)).1

/-- C9 (counterexample): the claim says the local temporary directory is
removed in all cases.  When the test succeeded and the remote is
reachable but the scan finds an unmatched record, `check_journal_messages`
raises before the `shutil.rmtree(self.tmpdir)` line, so the temporary
directory is not removed. -/
theorem teardown_tmpdir_counterexample :
    (tearDown true true (initial_allowed_messages [Regex.eps]) ["boom".data]).scanned = true
    ∧ (tearDown true true (initial_allowed_messages [Regex.eps]) ["boom".data]).tmpdirRemoved
        = false := by
  decide

/-- C9 (amended): `tearDown` runs the anomaly scan iff the body phase
recorded no error and the remote is reachable; the temporary directory is
removed when the scan is skipped or passes, but when the scan raises the
error propagates out of `tearDown` without the directory being removed. -/
theorem teardown_gating (checkSuccess ssh_reachable : Bool)
    (allowed : List Regex) (msgs : List (List Char)) :
    (tearDown checkSuccess ssh_reachable allowed msgs).scanned
        = (checkSuccess && ssh_reachable)
    ∧ (tearDown checkSuccess ssh_reachable allowed msgs).tmpdirRemoved
        = (!(checkSuccess && ssh_reachable) || (scanRecords allowed msgs).anomalies.isEmpty)
    ∧ (tearDown checkSuccess ssh_reachable allowed msgs).raised
        = (if (checkSuccess && ssh_reachable)
              && !(scanRecords allowed msgs).anomalies.isEmpty
           then some (failHeader ++ (scanRecords allowed msgs).anomalies.headD [])
           else none) := by
  unfold tearDown check_journal_messages
  by_cases hg : (checkSuccess && ssh_reachable) = true
  · rw [if_pos hg]
    cases h : (scanRecords allowed msgs).anomalies with
    | nil => simp [hg, h]
    | cons a rest => simp [hg, h]
  · have hg2 : (checkSuccess && ssh_reachable) = false := by simpa using hg
    rw [if_neg hg]
    simp [hg2]

/-- C10: calling `wait` with `tries <= 0` never enters the loop: the
generic timeout `Error` is raised immediately, with zero probe
invocations and zero sleeps. -/
theorem wait_nonpositive_tries {α : Type} (probe : Nat → ProbeResult α)
    (truthy : α → Bool) (msg : Option (List Char)) (tries : Int)
    (h : tries ≤ 0) :
    wait probe truthy msg tries
      = ⟨WaitOutcome.timeoutError (pyOr msg defaultWaitMsg), 0, 0⟩ := by
  unfold wait
  rw [waitGo]
  rw [dif_neg (by push_cast; omega)]

/-- C10 (witness): `tries = -3` raises the generic timeout immediately. -/
theorem wait_nonpositive_tries_witness :
    wait (fun _ => ProbeResult.val true) (fun b => b) none (-3)
      = ⟨WaitOutcome.timeoutError defaultWaitMsg, 0, 0⟩ := by
  have h := wait_nonpositive_tries (fun _ => ProbeResult.val true)
    (fun b => b) none (-3) (by omega)
  simpa using h

end KiteTest
